import Mathlib

/-!
# Verification of the mmp2.0 lazy-enrichment core

Shallow embedding of the enrichment orchestrator, quota tracker, result
cache and source adapters of the `mmp2.0` repository (`api/enrich.py`,
`api/cache.py`, `api/enrich_eviction.py`, `api/enrich_federal_cl.py`,
`api/enrich_professional_licenses.py`, `api/enrich_eductation.py`,
`api/enrich_employment_deep.py`, `api/enrich_relatives.py`,
`api/enrich_sec.py`, `api/enrich_domain.py`, `api/enrich_breach.py`).

Python exceptions are modelled by the `Except PyExc` monad; the behaviour
of each external collaborator (database, network, Redis) is an explicit
`Except`-valued parameter, so every possible behaviour of a collaborator
(returning a value, or raising) is one value of that parameter.  Side
effects (HTTP calls attempted, rows inserted, cache operations) are
returned as explicit counter fields.
-/

/-- The Python exception kinds raised by the embedded code or observed
from its collaborators. -/
inductive PyExc where
  | timeoutError
  | connectionError
  | httpStatusError
  | jsonDecodeError
  | keyError
  | valueError
  | indexError
  | nameError
  | dbError
  | other (msg : String)
deriving DecidableEq, Repr

deriving instance DecidableEq for Except

/-! ## Python string primitives

`String.splitOn` in core Lean is defined by well-founded recursion on
string positions and does not reduce inside the kernel, so the Python
string operations used by the adapters are embedded as structurally
recursive functions over the character list of the string. -/

/-- Auxiliary scanner for `pySplit`: structurally recursive on a fuel
argument that starts at one more than the length of the scanned list, so
the fuel never runs out on the strings actually passed in. -/
def pySplitAux (sep : List Char) : Nat → List Char → List Char → List (List Char)
  | _, [], acc => [acc.reverse]
  | 0, l, acc => [acc.reverse ++ l]
  | fuel + 1, c :: cs, acc =>
    if sep.isPrefixOf (c :: cs) then
      acc.reverse :: pySplitAux sep fuel (List.drop sep.length (c :: cs)) []
    else
      pySplitAux sep fuel cs (c :: acc)

/-- Python `s.split(sep)` for a nonempty separator `sep`: the maximal
list of parts obtained by removing leftmost non-overlapping occurrences
of the separator.  `(pySplit sep s).length = 1 + (number of occurrences
of sep in s)`. -/
def pySplit (sep s : String) : List String :=
  (pySplitAux sep.toList (s.toList.length + 1) s.toList []).map (fun l => String.mk l)

/-- Python `needle in haystack` substring test: the empty needle is in
everything, and a nonempty needle occurs exactly when splitting on it
yields more than one part. -/
def pyInStr (needle haystack : String) : Bool :=
  needle == "" || (pySplit needle haystack).length != 1

/-- Auxiliary scanner for Python's no-argument `s.split()`: splits on
runs of whitespace and discards empty parts. -/
def wsSplitAux : List Char → List Char → List (List Char)
  | [], acc => if acc.isEmpty then [] else [acc.reverse]
  | c :: cs, acc =>
    if c.isWhitespace then
      if acc.isEmpty then wsSplitAux cs [] else acc.reverse :: wsSplitAux cs []
    else
      wsSplitAux cs (c :: acc)

/-- Python `s.split()` (no separator): split on whitespace runs. -/
def pyWhitespaceSplit (s : String) : List String :=
  (wsSplitAux s.toList []).map (fun l => String.mk l)

/-- Python `s.strip()`: drop leading and trailing whitespace. -/
def pyStrip (s : String) : String :=
  String.mk (((s.toList.dropWhile Char.isWhitespace).reverse.dropWhile
    Char.isWhitespace).reverse)

/-- Python `s.lower()` (ASCII names in this data set). -/
def pyLower (s : String) : String := String.mk (s.toList.map Char.toLower)

/-- Python `s[:n]` on a string. -/
def pyTake (s : String) (n : Nat) : String := String.mk (s.toList.take n)

/-- Python `s[-n:]` on a string: the last `n` characters (the whole
string when it is shorter than `n`). -/
def pyTakeRight (s : String) (n : Nat) : String :=
  String.mk (s.toList.drop (s.toList.length - n))

/-- Python `last, first = person_name.split(", ") if ", " in person_name else (person_name, "")`
(`enrich_eviction.py` line 10, `enrich_federal_cl.py` line 11,
`enrich_employment_deep.py` line 15, `enrich_eductation.py` line 15,
`enrich_professional_licenses.py` line 27).  When the separator occurs,
the tuple unpacking of the split list succeeds only for exactly two
parts; three or more parts raise `ValueError`. -/
def parseName (person_name : String) : Except PyExc (String × String) :=
  if pyInStr ", " person_name then
    match pySplit ", " person_name with
    | [l, f] => .ok (l, f)
    | _ => .error .valueError
  else
    .ok (person_name, "")

/-! ## Quota tracker (`api/enrich.py` lines 14-36) -/

/-- Python `FREE_LIMITS = {"data_axle": 6000, "a_leads": 60000}` together with
the `FREE_LIMITS.get(source, 0)` lookup in `can_enrich` (`enrich.py`
lines 15 and 35). -/
def FREE_LIMITS_get (source : String) : Nat :=
  if source = "data_axle" then 6000
  else if source = "a_leads" then 60000
  else 0

/-- Python `get_monthly_usage` (`enrich.py` lines 17-30): the month's
`SUM(lookups)` from `api_cost_log` on success; any exception from the
database is caught and the sentinel `999999` is returned
("Fail safe - assume quota exceeded").  `dbUsage` is the behaviour of
the database query. -/
def get_monthly_usage (dbUsage : Except PyExc Nat) : Nat :=
  match dbUsage with
  | .ok n => n
  | .error _ => 999999

/-- Python `can_enrich` (`enrich.py` lines 32-36): `used < FREE_LIMITS.get(source, 0)`. -/
def can_enrich (source : String) (dbUsage : Except PyExc Nat) : Bool :=
  get_monthly_usage dbUsage < FREE_LIMITS_get source

/-! ## Result cache (`api/cache.py`, and `_get_redis_client` of
`api/enrich_breach.py` lines 42-51 / `api/enrich_relatives.py` lines 39-47) -/

/-- The behaviour of the configured Redis client for the one `get` and
the one `setex` the `cache_ttl` wrapper performs: each either returns or
raises. `r.get` returns `none` for a missing key. -/
structure RedisOps where
  get : Except PyExc (Option String)
  setex : Except PyExc Unit

/-- Observable outcome of one call to a `cache_ttl`-wrapped function:
its result (value returned or exception raised), how often the
underlying function was called, how many cache reads and writes were
performed, and the payload durably stored, if any. -/
structure CacheCall (V : Type) where
  result : Except PyExc V
  funcCalls : Nat
  cacheGets : Nat
  cacheSets : Nat
  stored : Option String
deriving DecidableEq, Repr

/-- The wrapper produced by the `cache_ttl` decorator (`cache.py` lines
17-31) applied at one argument tuple.  `r` is the module-level client
(`None` when `REDIS_URL` is unset or invalid, lines 5-9); `func` is the
outcome of the wrapped function at these arguments; `decode`/`encode`
stand for `json.loads`/`json.dumps`.  The wrapper body performs `r.get`,
`func`, and `r.setex` with no try/except of its own, so any exception
they raise propagates; Python's `if hit:` treats both a missing key and
an empty string as a miss. -/
def cache_ttl {V : Type} (r : Option RedisOps) (decode : String → V)
    (encode : V → String) (func : Except PyExc V) : CacheCall V :=
  match r with
  | none =>
    { result := func, funcCalls := 1, cacheGets := 0, cacheSets := 0, stored := none }
  | some cl =>
    match cl.get with
    | .error e =>
      { result := .error e, funcCalls := 0, cacheGets := 1, cacheSets := 0, stored := none }
    | .ok hitOpt =>
      let onMiss : CacheCall V :=
        match func with
        | .error e =>
          { result := .error e, funcCalls := 1, cacheGets := 1, cacheSets := 0, stored := none }
        | .ok v =>
          match cl.setex with
          | .error e =>
            { result := .error e, funcCalls := 1, cacheGets := 1, cacheSets := 1, stored := none }
          | .ok _ =>
            { result := .ok v, funcCalls := 1, cacheGets := 1, cacheSets := 1,
              stored := some (encode v) }
      match hitOpt with
      | none => onMiss
      | some s =>
        if s = "" then onMiss
        else { result := .ok (decode s), funcCalls := 0, cacheGets := 1, cacheSets := 0,
               stored := none }

/-- Python `_get_redis_client` (`enrich_breach.py` lines 42-51, identical in
`enrich_relatives.py` and `enrich_sec.py`): `conn` is the joint
behaviour of `redis.from_url` and `client.ping()`; every exception is
caught and `None` is returned, which callers treat as a cache miss. -/
def get_redis_client {C : Type} (conn : Except PyExc C) : Option C :=
  match conn with
  | .ok c => some c
  | .error _ => none

/-! ## Eviction adapter (`api/enrich_eviction.py`) -/

/-- One element of the JSON array returned by the Harris County eviction
endpoint.  `d["filed_date"]` is a mandatory-key lookup, so the field is
an `Option` and a missing key raises `KeyError`. -/
structure EvRow where
  filed_date : Option String
deriving DecidableEq, Repr

/-- The eviction HTTP response: its status and the behaviour of
`await resp.json()` (which raises on a malformed payload). -/
structure EvResponse where
  status : Nat
  json : Except PyExc (List EvRow)

/-- Normalized output of `enrich_evictions`. -/
structure EvOut where
  eviction_count : Nat
  eviction_dates : List String
deriving DecidableEq, Repr

/-- Python `enrich_evictions` (`enrich_eviction.py` lines 6-29).  The first
component counts outbound HTTP requests attempted; `net` is the
behaviour of `session.get`.  The name is split first; the request is
made with no try/except anywhere in the function, so a network exception
(e.g. a timeout) propagates to the caller; a non-200 status returns
`None`; an empty JSON array returns `None`; otherwise each row is
normalized, where `d["filed_date"][:10]` raises `KeyError` on a row
without the key. -/
def enrich_evictions (person_name : String) (net : Except PyExc EvResponse) :
    Nat × Except PyExc (Option EvOut) :=
  match parseName person_name with
  | .error e => (0, .error e)
  | .ok _ =>
    match net with
    | .error e => (1, .error e)
    | .ok resp =>
      if resp.status ≠ 200 then (1, .ok none)
      else
        match resp.json with
        | .error e => (1, .error e)
        | .ok data =>
          if data = [] then (1, .ok none)
          else
            match data.mapM (fun d =>
                match d.filed_date with
                | some s => Except.ok (pyTake s 10)
                | none => Except.error PyExc.keyError) with
            | .error e => (1, .error e)
            | .ok dates =>
              (1, .ok (some { eviction_count := data.length, eviction_dates := dates }))

/-! ## Federal cases adapter (`api/enrich_federal_cl.py`) -/

/-- The nested `c["court"]` object; `["short_name"]` is a mandatory-key
lookup on it. -/
structure CourtObj where
  short_name : Option String
deriving DecidableEq, Repr

/-- One raw docket from the CourtListener response.  `docket_number` and
`court` are read with mandatory-key lookups (raising `KeyError` when
absent); the rest use `.get` with defaults. -/
structure FedCase where
  docket_number : Option String
  case_name : Option String
  court : Option CourtObj
  date_filed : Option String
  case_type : Option String
  nature_of_suit : Option String
deriving DecidableEq, Repr

/-- The CourtListener HTTP response: its status and the behaviour of
`await resp.json()`; `results` is `none` when the payload lacks the
`"results"` key (defaulted to `[]` by `data.get("results", [])`). -/
structure FedResponse where
  status : Nat
  json : Except PyExc (Option (List FedCase))

/-- Normalized output row of `enrich_federal_cases`. -/
structure FedOut where
  case_number : String
  case_title : String
  court : String
  filed_date : Option String
  case_type : String
  nature_suit : String
  source : String
deriving DecidableEq, Repr

/-- The per-case normalization loop body of `enrich_federal_cases`
(`enrich_federal_cl.py` lines 27-36): `c["docket_number"]`,
`c["court"]["short_name"]` raise `KeyError` when the key is absent; the
other fields default. -/
def fedClean (c : FedCase) : Except PyExc FedOut :=
  match c.docket_number with
  | none => .error .keyError
  | some dn =>
    match c.court with
    | none => .error .keyError
    | some co =>
      match co.short_name with
      | none => .error .keyError
      | some sn =>
        .ok { case_number := dn, case_title := c.case_name.getD "", court := sn,
              filed_date := c.date_filed, case_type := c.case_type.getD "",
              nature_suit := c.nature_of_suit.getD "",
              source := "courtlistener_federal" }

/-- The `for c in cases` normalization loop of `enrich_federal_cases`
(`enrich_federal_cl.py` lines 26-36): appends the cleaned cases in
order; the first `KeyError` aborts the whole loop (no try/except). -/
def fedCleanAll : List FedCase → Except PyExc (List FedOut)
  | [] => .ok []
  | c :: cs =>
    match fedClean c with
    | .error e => .error e
    | .ok r =>
      match fedCleanAll cs with
      | .error e => .error e
      | .ok rs => .ok (r :: rs)

/-- Python `enrich_federal_cases` (`enrich_federal_cl.py` lines 7-38).  The
first component counts outbound HTTP requests.  No try/except anywhere:
a network exception or a `KeyError` from the normalization loop
propagates.  A non-200 status returns `None`.  The cleaned list is
returned whole — there is no truncation of the result list in this
adapter (`page_size: 50` is only a request parameter). -/
def enrich_federal_cases (person_name : String) (net : Except PyExc FedResponse) :
    Nat × Except PyExc (Option (List FedOut)) :=
  match parseName person_name with
  | .error e => (0, .error e)
  | .ok _ =>
    match net with
    | .error e => (1, .error e)
    | .ok resp =>
      if resp.status ≠ 200 then (1, .ok none)
      else
        match resp.json with
        | .error e => (1, .error e)
        | .ok resultsOpt =>
          match fedCleanAll (resultsOpt.getD []) with
          | .error e => (1, .error e)
          | .ok cleaned => (1, .ok (some cleaned))

/-! ## Bulk-CSV adapters (`api/enrich_eductation.py`,
`api/enrich_professional_licenses.py`) -/

/-- Modelled from the spec: `download_bulk_csv_once` is called by
`enrich_professional_licenses.py` line 32 and `enrich_eductation.py`
line 17 but has no definition anywhere in the source tree.  Per the
spec (§6 "HTTP client capability", the §4.3 bulk-file-scan adapter
pattern, and the source comment "download once per quarter (cached in
Redis)") it downloads a bulk CSV file over HTTP and returns its parsed
rows, raising on network failure.  Its behaviour, composed with
`csv.DictReader`, is passed in as the `Except`-valued argument. -/
def download_bulk_csv_once {Row : Type} (net : Except PyExc (List Row)) :
    Except PyExc (List Row) := net

/-- One parsed CSV row of the National Student Clearinghouse bulk file;
every field is read with `row.get`. -/
structure EduCsvRow where
  last_name : Option String
  institution_name : Option String
  degree_level : Option String
  major : Option String
  graduation_year : Option String
  institution_state : Option String
deriving DecidableEq, Repr

/-- Normalized output row of `enrich_education`. -/
structure EduOut where
  school : Option String
  degree : Option String
  major : Option String
  grad_year : Option String
  state : Option String
  source : String
deriving DecidableEq, Repr

/-- Python `enrich_education` (`enrich_eductation.py` lines 11-30).  The first
component counts bulk downloads attempted.  The name is split first
(possible `ValueError`); the download has no try/except, so its failure
propagates; rows whose lower-cased `last_name` does not contain the
lower-cased last name are skipped; the result is capped with
`edu[:20]`. -/
def enrich_education (person_name : String) (bulk : Except PyExc (List EduCsvRow)) :
    Nat × Except PyExc (List EduOut) :=
  match parseName person_name with
  | .error e => (0, .error e)
  | .ok (last, _first) =>
    match download_bulk_csv_once bulk with
    | .error e => (1, .error e)
    | .ok rows =>
      let edu := (rows.filter
          (fun row => pyInStr (pyLower last) (pyLower (row.last_name.getD "")))).map
        (fun row =>
          { school := row.institution_name, degree := row.degree_level,
            major := row.major, grad_year := row.graduation_year,
            state := row.institution_state, source := "nsc_bulk" : EduOut })
      (1, .ok (edu.take 20))

/-- Keys of `BULK_SOURCES` (`enrich_professional_licenses.py` lines
11-20), in dict insertion order. -/
def BULK_SOURCES_keys : List String :=
  ["medical", "legal", "real_estate", "contractor", "cpa", "nurse", "pilot", "teacher"]

/-- One parsed CSV row of a professional-license bulk file; every field
is read with `row.get` (`violations` defaults to the integer `0` when
the key is absent). -/
structure LicCsvRow where
  last_name : Option String
  status : Option String
  issue_date : Option String
  expiry_date : Option String
  state : Option String
  violations : Option String
deriving DecidableEq, Repr

/-- Normalized output row of `enrich_professional_licenses`. -/
structure LicOut where
  license_type : String
  status : String
  issue_date : Option String
  expiry_date : Option String
  state : Option String
  violations : Int
  source : String
deriving DecidableEq, Repr

/-- Loop body over one CSV row (`enrich_professional_licenses.py` lines
34-45): skip rows whose `last_name` does not contain the search last
name (case-insensitive); `int(row.get("violations", 0))` raises
`ValueError` on a non-numeric string. -/
def licCleanRow (lic_type last : String) (row : LicCsvRow) :
    Except PyExc (Option LicOut) :=
  if ¬ pyInStr (pyLower last) (pyLower (row.last_name.getD "")) then .ok none
  else
    match row.violations with
    | none =>
      .ok (some { license_type := lic_type, status := row.status.getD "active",
                  issue_date := row.issue_date, expiry_date := row.expiry_date,
                  state := row.state, violations := 0,
                  source := "bulk_" ++ lic_type })
    | some s =>
      match s.toInt? with
      | none => .error .valueError
      | some v =>
        .ok (some { license_type := lic_type, status := row.status.getD "active",
                    issue_date := row.issue_date, expiry_date := row.expiry_date,
                    state := row.state, violations := v,
                    source := "bulk_" ++ lic_type })

/-- The `for lic_type, csv_url in BULK_SOURCES.items()` loop of
`enrich_professional_licenses` (lines 30-45): downloads each source in
turn (counting attempts) and accumulates the matching normalized rows;
the first exception aborts the whole loop. -/
def licLoop (last : String) (bulk : String → Except PyExc (List LicCsvRow)) :
    List String → Nat × Except PyExc (List LicOut)
  | [] => (0, .ok [])
  | k :: ks =>
    match download_bulk_csv_once (bulk k) with
    | .error e => (1, .error e)
    | .ok rows =>
      match rows.mapM (licCleanRow k last) with
      | .error e => (1, .error e)
      | .ok opts =>
        match licLoop last bulk ks with
        | (n, .error e) => (n + 1, .error e)
        | (n, .ok rest) => (n + 1, .ok (opts.filterMap id ++ rest))

/-- Python `enrich_professional_licenses` (`enrich_professional_licenses.py`
lines 22-46).  The first component counts bulk downloads attempted.
The name is split first (possible `ValueError`); no try/except anywhere,
so download or parse failures propagate; the accumulated list is capped
with `all_licenses[:50]`. -/
def enrich_professional_licenses (person_name : String)
    (bulk : String → Except PyExc (List LicCsvRow)) :
    Nat × Except PyExc (List LicOut) :=
  match parseName person_name with
  | .error e => (0, .error e)
  | .ok (last, _first) =>
    match licLoop last bulk BULK_SOURCES_keys with
    | (n, .error e) => (n, .error e)
    | (n, .ok all_licenses) => (n, .ok (all_licenses.take 50))

/-! ## Employment adapter (`api/enrich_employment_deep.py`) -/

/-- One raw result from the Data Axle employment search; every field is
read with `j.get`. -/
structure EmpRow where
  job_title : Option String
  employer_name : Option String
  start_date : Option String
  end_date : Option String
  industry : Option String
deriving DecidableEq, Repr

/-- The employment HTTP response: status and `await resp.json()`
behaviour; `results` is `none` when the key is absent (defaulted to
`[]`). -/
structure EmpResponse where
  status : Nat
  json : Except PyExc (Option (List EmpRow))

/-- Normalized output row of `enrich_employment_deep`. -/
structure EmpOut where
  job_title : Option String
  employer : Option String
  start_date : Option String
  end_date : Option String
  industry : Option String
  source : String
deriving DecidableEq, Repr

/-- Python `enrich_employment_deep` (`enrich_employment_deep.py` lines 11-38).
The first component counts outbound HTTP requests.  The name is split
first (possible `ValueError`); the POST has no try/except, so a network
exception propagates; a non-200 status returns `None`; the cleaned list
is capped with `cleaned[:20]`. -/
def enrich_employment_deep (person_name : String) (net : Except PyExc EmpResponse) :
    Nat × Except PyExc (Option (List EmpOut)) :=
  match parseName person_name with
  | .error e => (0, .error e)
  | .ok _ =>
    match net with
    | .error e => (1, .error e)
    | .ok resp =>
      if resp.status ≠ 200 then (1, .ok none)
      else
        match resp.json with
        | .error e => (1, .error e)
        | .ok resultsOpt =>
          let cleaned := (resultsOpt.getD []).map (fun j =>
            { job_title := j.job_title, employer := j.employer_name,
              start_date := j.start_date, end_date := j.end_date,
              industry := j.industry, source := "data_axle_employment" : EmpOut })
          (1, .ok (some (cleaned.take 20)))

/-! ## Relatives adapter (`api/enrich_relatives.py`) -/

/-- One raw family member or associate from the A-Leads family API;
every field is read with `.get`. -/
structure RelPerson where
  relationship : Option String
  name : Option String
  age : Option Nat
  address : Option String
  phone : Option String
  email : Option String
deriving DecidableEq, Repr

/-- Python `results[0]` of the A-Leads family response: its `family` and
`associates` arrays (each `none` when the key is absent, defaulted to
`[]` by `.get`). -/
structure RelResult0 where
  family : Option (List RelPerson)
  associates : Option (List RelPerson)
deriving DecidableEq, Repr

/-- The A-Leads family HTTP response: status and the behaviour of
`await resp.json()`; `results` is `none` when the key is absent. -/
structure RelResponse where
  status : Nat
  json : Except PyExc (Option (List RelResult0))

/-- Normalized output row of `enrich_relatives_deep`. -/
structure RelOut where
  relationship : String
  name : String
  age : Option Nat
  address : String
  phone : String
  email : String
  source : String
deriving DecidableEq, Repr

/-- Family branch of the normalization loop (`enrich_relatives.py`
lines 104-113). -/
def relCleanFamily (rel : RelPerson) : RelOut :=
  { relationship := rel.relationship.getD "relative", name := rel.name.getD "",
    age := rel.age, address := rel.address.getD "", phone := rel.phone.getD "",
    email := rel.email.getD "", source := "a_leads_family" }

/-- Associates branch of the normalization loop (`enrich_relatives.py`
lines 116-125). -/
def relCleanAssoc (assoc : RelPerson) : RelOut :=
  { relationship := assoc.relationship.getD "associate", name := assoc.name.getD "",
    age := assoc.age, address := assoc.address.getD "", phone := assoc.phone.getD "",
    email := assoc.email.getD "", source := "a_leads_associates" }

/-- Name parsing of `enrich_relatives_deep` (`enrich_relatives.py`
lines 80-82): on a comma, `parts[0]` is the last name and `parts[1]`
the first; otherwise a whitespace split, where `parts[-1]` raises
`IndexError` on a whitespace-only name.  Returns `(last, first)`. -/
def relParseName (person_name : String) : Except PyExc (String × String) :=
  if pyInStr "," person_name then
    match pySplit "," person_name with
    | p0 :: p1 :: _ => .ok (pyStrip p0, pyStrip p1)
    | _ => .error .indexError
  else
    match pyWhitespaceSplit person_name with
    | [] => .error .indexError
    | p0 :: ps => .ok (pyStrip ((p0 :: ps).getLast (by simp)), pyStrip p0)

/-- Python `enrich_relatives_deep` (`enrich_relatives.py` lines 65-140).
`keyConfigured` is the truthiness of `A_LEADS_KEY`, `quotaAvailable` the
result of `_is_free_tier_available()`, `net` the behaviour of
`session.post`.  The whole request body sits inside
`try/except (TimeoutError, Exception)`, so the function never raises:
every exception becomes `None`.  The first component counts the calls to
`_increment_monthly_usage()`, which happens directly after a 200
response is JSON-parsed — before `results` is inspected.  A 404 returns
`[]`; any other status returns `None`.  The cleaned list (family then
associates) is returned whole — there is no truncation. -/
def enrich_relatives_deep (person_name : String) (keyConfigured quotaAvailable : Bool)
    (net : Except PyExc RelResponse) : Nat × Option (List RelOut) :=
  if ¬ keyConfigured then (0, none)
  else if ¬ quotaAvailable then (0, none)
  else
    match relParseName person_name with
    | .error _ => (0, none)
    | .ok _ =>
      match net with
      | .error _ => (0, none)
      | .ok resp =>
        if resp.status = 200 then
          match resp.json with
          | .error _ => (0, none)
          | .ok resultsOpt =>
            match resultsOpt.getD [] with
            | [] => (1, none)
            | r0 :: _ =>
              let family := r0.family.getD []
              let associates := r0.associates.getD []
              (1, some (family.map relCleanFamily ++ associates.map relCleanAssoc))
        else if resp.status = 404 then (0, some [])
        else (0, none)

/-! ## SEC filings adapter (`api/enrich_sec.py`) -/

/-- One filing extracted from the SEC daily-index XML. -/
structure SecFiling where
  form_type : String
  company_name : String
  filed_date : String
  cik : String
  accession_number : String
  link : String
deriving DecidableEq, Repr

/-- Python `FILING_LIMIT = 20` (`enrich_sec.py` line 26). -/
def FILING_LIMIT : Nat := 20

/-- Python `enrich_sec_filings` (`enrich_sec.py` lines 188-247), with the
XML-parsing helper `_parse_sec_xml` abstracted as the function `parse`
applied to the fetched index text.  `person_name` is `none` when
`person_data` is falsy or lacks the `"name"` key; `cached` is the value
found in Redis, if a client is available and the key is present;
`xml_content` is the result of `_fetch_daily_index` (`none` on any
fetch failure, which that helper catches).  The parsed list is capped
with `all_filings[:FILING_LIMIT]`, and an empty capped list yields the
empty record `{}` (here `none`). -/
def enrich_sec_filings (person_name : Option String)
    (cached : Option (List SecFiling)) (xml_content : Option String)
    (parse : String → List SecFiling) : Option (List SecFiling) :=
  match person_name with
  | none => none
  | some nm =>
    if nm = "" then none
    else
      match cached with
      | some hit => some hit
      | none =>
        match xml_content with
        | none => none
        | some xml =>
          let all_filings := parse xml
          let filings := all_filings.take FILING_LIMIT
          if filings = [] then none else some filings

/-! ## Domain adapter (`api/enrich_domain.py`) -/

/-- The WHOIS HTTP response: status and the behaviour of
`await resp.json()`; the inner `Option String` is the
`WhoisRecord.rawText` field (`none` when absent, defaulted to `""`). -/
structure DomResponse where
  status : Nat
  json : Except PyExc (Option String)

/-- Python `enrich_domain` (`enrich_domain.py` lines 7-31).  The first
component counts outbound HTTP requests.  An email without `"@"` (or
empty) returns `None` before any call; no try/except, so a network or
parse exception propagates; a non-200 status returns `None`.  The
domains are the distinct registered domains (`registered_domain` stands
for `tldextract.extract(·).registered_domain`) of the dot-containing
whitespace-separated words of the raw WHOIS text — deduplicated as
Python's `set` does, here in first-occurrence order — capped with
`[:10]`. -/
def enrich_domain (email : String) (net : Except PyExc DomResponse)
    (registered_domain : String → String) :
    Nat × Except PyExc (Option (List String)) :=
  if email = "" ∨ ¬ pyInStr "@" email then (0, .ok none)
  else
    match net with
    | .error e => (1, .error e)
    | .ok resp =>
      if resp.status ≠ 200 then (1, .ok none)
      else
        match resp.json with
        | .error e => (1, .error e)
        | .ok rawTextOpt =>
          let raw := rawTextOpt.getD ""
          let domains := (((pyWhitespaceSplit raw).filter
              (fun d => pyInStr "." d)).map registered_domain).eraseDups
          (1, .ok (some (domains.take 10)))

/-! ## Orchestrated enrichment functions (`api/enrich.py`) -/

/-- One contact from the A-Leads search response; every field is read
with `contact.get`. -/
structure ALeadsContact where
  id : Option String
  phone : Option String
  email : Option String
deriving DecidableEq, Repr

/-- The A-Leads search HTTP response: status (checked by
`resp.raise_for_status()`, which raises for any non-2xx status) and the
behaviour of `resp.json()`; `results` is `none` when the key is absent
(defaulted to `[]`). -/
structure ALeadsResponse where
  status : Nat
  json : Except PyExc (Option (List ALeadsContact))

/-- Collaborator behaviours for one call to `enrich_person_contact`:
the `COUNT(*)` existence check on `person_contact`, the usage query of
`get_monthly_usage("a_leads")`, the truthiness of `A_LEADS_KEY`, the
outbound POST, and the insert transaction (contact row, cost-log row,
commit). -/
structure ContactEnv where
  dbCount : Except PyExc Nat
  quotaDb : Except PyExc Nat
  keyConfigured : Bool
  net : Except PyExc ALeadsResponse
  dbWrite : Except PyExc Unit

/-- Observable effects of one call to `enrich_person_contact`: HTTP
requests attempted, `person_contact` rows inserted, `api_cost_log` rows
inserted, and the `(phone10, email_local)` values of the inserted row,
if any.  The function itself never raises: every step that can fail is
inside a try/except or behind an early return. -/
structure ContactEffects where
  httpCalls : Nat
  contactInserts : Nat
  costLogInserts : Nat
  inserted : Option (Option String × Option String)
deriving DecidableEq, Repr

/-- Python `contact.get("phone", "")[-10:] if contact.get("phone") else None`
(`enrich.py` line 76). -/
def contactPhone10 (contact : ALeadsContact) : Option String :=
  match contact.phone with
  | some s => if s = "" then none else some (pyTakeRight s 10)
  | none => none

/-- Python `email_full.split("@")[0].lower() if email_full and "@" in email_full else None`
where `email_full = contact.get("email", "")` (`enrich.py` lines 77-78). -/
def contactEmailLocal (contact : ALeadsContact) : Option String :=
  let email_full := contact.email.getD ""
  if email_full ≠ "" ∧ pyInStr "@" email_full then
    some (pyLower ((pySplit "@" email_full).headD ""))
  else none

/-- Python `enrich_person_contact` (`enrich.py` lines 38-98).  Order of the
source: (1) `COUNT(*)` existence check — a database error or a positive
count returns immediately; (2) `can_enrich("a_leads")` — quota
exhausted returns; (3) missing API key returns; (4) the POST inside
`try/except Exception` — a network error, non-2xx status
(`raise_for_status`), malformed JSON, or empty `results` returns with
nothing inserted; otherwise the contact row and the `api_cost_log` row
are inserted in one transaction.  The cost-log row is only reached when
`results` is non-empty. -/
def enrich_person_contact (env : ContactEnv) : ContactEffects :=
  match env.dbCount with
  | .error _ => ⟨0, 0, 0, none⟩
  | .ok count =>
    if count > 0 then ⟨0, 0, 0, none⟩
    else if ¬ can_enrich "a_leads" env.quotaDb then ⟨0, 0, 0, none⟩
    else if ¬ env.keyConfigured then ⟨0, 0, 0, none⟩
    else
      match env.net with
      | .error _ => ⟨1, 0, 0, none⟩
      | .ok resp =>
        if resp.status < 200 ∨ 300 ≤ resp.status then ⟨1, 0, 0, none⟩
        else
          match resp.json with
          | .error _ => ⟨1, 0, 0, none⟩
          | .ok resultsOpt =>
            match resultsOpt.getD [] with
            | [] => ⟨1, 0, 0, none⟩
            | contact :: _ =>
              match env.dbWrite with
              | .error _ => ⟨1, 0, 0, none⟩
              | .ok _ =>
                ⟨1, 1, 1, some (contactPhone10 contact, contactEmailLocal contact)⟩

/-- One docket from the CourtListener bankruptcy response; every field
is read with `case.get`. -/
structure BkCase where
  date_filed : Option String
  docket_number : Option String
  case_name : Option String
  court : Option String
deriving DecidableEq, Repr

/-- The CourtListener bankruptcy HTTP response. -/
structure BkResponse where
  status : Nat
  json : Except PyExc (Option (List BkCase))

/-- Collaborator behaviours for one call to `enrich_bankruptcy`: the
`COUNT(*)` existence check on `person_risk_signal`, the outbound GET,
and the per-case insert transactions (indexed by position in the result
list; each insert has its own try/except). -/
structure BkEnv where
  dbCount : Except PyExc Nat
  net : Except PyExc BkResponse
  dbInsert : Nat → Except PyExc Unit

/-- Observable effects of one call to `enrich_bankruptcy`: HTTP
requests attempted and `person_risk_signal` rows inserted. -/
structure BkEffects where
  httpCalls : Nat
  riskInserts : Nat
deriving DecidableEq, Repr

/-- Python `enrich_bankruptcy` (`enrich.py` lines 100-156).  Order of the
source: (1) `COUNT(*)` existence check — a database error or a positive
count returns immediately (no quota check: CourtListener is unmetered);
(2) the GET inside `try/except Exception` — a network error, non-2xx
status, or malformed JSON returns with nothing inserted; (3) one insert
per returned case, each inside its own try/except, so a failing insert
only skips that case. -/
def enrich_bankruptcy (env : BkEnv) : BkEffects :=
  match env.dbCount with
  | .error _ => ⟨0, 0⟩
  | .ok count =>
    if count > 0 then ⟨0, 0⟩
    else
      match env.net with
      | .error _ => ⟨1, 0⟩
      | .ok resp =>
        if resp.status < 200 ∨ 300 ≤ resp.status then ⟨1, 0⟩
        else
          match resp.json with
          | .error _ => ⟨1, 0⟩
          | .ok resultsOpt =>
            let results := resultsOpt.getD []
            ⟨1, (List.range results.length).countP (fun i => (env.dbInsert i).isOk)⟩

/-- One business from the Data Axle response. -/
structure AxleBiz where
  id : Option String
  employees : Option Nat
  sales_volume : Option Nat
  sic_code : Option String
deriving DecidableEq, Repr

/-- The Data Axle HTTP response. -/
structure AxleResponse where
  status : Nat
  json : Except PyExc (Option (List AxleBiz))

/-- Collaborator behaviours for one call to
`enrich_business_firmographics`: the `COUNT(*)` existence check on
`business_risk_signal`, the usage query of
`get_monthly_usage("data_axle")`, the truthiness of `DATA_AXLE_KEY`,
the outbound POST, and the insert transaction (signal row, cost-log
row, commit). -/
structure FirmoEnv where
  dbCount : Except PyExc Nat
  quotaDb : Except PyExc Nat
  keyConfigured : Bool
  net : Except PyExc AxleResponse
  dbWrite : Except PyExc Unit

/-- Observable effects of one call to `enrich_business_firmographics`. -/
structure FirmoEffects where
  httpCalls : Nat
  signalInserts : Nat
  costLogInserts : Nat
deriving DecidableEq, Repr

/-- Python `enrich_business_firmographics` (`enrich.py` lines 158-227).
Structurally identical to `enrich_person_contact` with source
`"data_axle"`, table `business_risk_signal`, and key `DATA_AXLE_KEY`:
existence check, quota check, key check, POST inside
`try/except Exception`, and — only for a non-empty `results` — the
signal row and `api_cost_log` row inserted in one transaction. -/
def enrich_business_firmographics (env : FirmoEnv) : FirmoEffects :=
  match env.dbCount with
  | .error _ => ⟨0, 0, 0⟩
  | .ok count =>
    if count > 0 then ⟨0, 0, 0⟩
    else if ¬ can_enrich "data_axle" env.quotaDb then ⟨0, 0, 0⟩
    else if ¬ env.keyConfigured then ⟨0, 0, 0⟩
    else
      match env.net with
      | .error _ => ⟨1, 0, 0⟩
      | .ok resp =>
        if resp.status < 200 ∨ 300 ≤ resp.status then ⟨1, 0, 0⟩
        else
          match resp.json with
          | .error _ => ⟨1, 0, 0⟩
          | .ok resultsOpt =>
            match resultsOpt.getD [] with
            | [] => ⟨1, 0, 0⟩
            | _biz :: _ =>
              match env.dbWrite with
              | .error _ => ⟨1, 0, 0⟩
              | .ok _ => ⟨1, 1, 1⟩

/-! ## Orchestrator entry point (`api/enrich.py` lines 229-250) -/

/-- Python `asyncio.gather(*tasks, return_exceptions=True)`: every task runs to
settlement, and the gathered list holds, position by position, each
task's own outcome — a failed task contributes its exception object
instead of aborting the batch. -/
def gather_return_exceptions {α : Type} : List (Except PyExc α) → List (Except PyExc α)
  | [] => []
  | t :: ts => t :: gather_return_exceptions ts

/-- Collaborator behaviours for one call to
`trigger_enrichments_async`: the event-loop setup
(`asyncio.new_event_loop` / `set_event_loop`) and the settlement
outcome of each of the three enrichment coroutines.  The coroutine
outcomes are unconstrained, covering every behaviour of the adapters,
quota checks, database and network — including raising. -/
structure TriggerEnv where
  loopSetup : Except PyExc Unit
  personContactTask : Except PyExc Unit
  bankruptcyTask : Except PyExc Unit
  firmographicsTask : Except PyExc Unit

/-- The task list built by `trigger_enrichments_async` (`enrich.py`
lines 235-245): two tasks for `"person"`, one for `"business"`, and an
early plain return (`none`) for any other entity type. -/
def trigger_tasks (entity_type : String) (env : TriggerEnv) :
    Option (List (Except PyExc Unit)) :=
  if entity_type = "person" then some [env.personContactTask, env.bankruptcyTask]
  else if entity_type = "business" then some [env.firmographicsTask]
  else none

/-- Python `trigger_enrichments_async` (`enrich.py` lines 229-250): the whole
body sits inside `try/except Exception`, and the batch is run with
`asyncio.gather(*tasks, return_exceptions=True)`, so the function
always returns `None` normally (`.ok ()`): no exception propagates to
the caller. -/
def trigger_enrichments_async (entity_type : String) (env : TriggerEnv) :
    Except PyExc Unit :=
  match (do
      let _ ← env.loopSetup
      match trigger_tasks entity_type env with
      | none => Except.ok ()
      | some tasks =>
        let _settled := gather_return_exceptions tasks
        Except.ok ()
      : Except PyExc Unit) with
  | .ok _ => .ok ()
  | .error _ => .ok ()

/-- Events observable at the boundary of `trigger_enrichments_async`:
the settlement of the `i`-th dispatched enrichment task, and the return
of control to the caller. -/
inductive TriggerEvent where
  | taskSettled (i : Nat)
  | returnToCaller
deriving DecidableEq, Repr

/-- The event order of `trigger_enrichments_async` (`enrich.py` lines
229-250): `loop.run_until_complete(asyncio.gather(*tasks, ...))` is a
synchronous, blocking call — it returns only once every task in the
batch has settled — and only then does the function return to its
caller.  So the trace is: every dispatched task settles, then control
returns. -/
def trigger_trace (entity_type : String) : List TriggerEvent :=
  let n := if entity_type = "person" then 2
           else if entity_type = "business" then 1
           else 0
  ((List.range n).map TriggerEvent.taskSettled) ++ [TriggerEvent.returnToCaller]

/-- One hundred anonymous family members. -/
def relPerson100 : List RelPerson :=
  List.replicate 100
    { relationship := none, name := none, age := none,
      address := none, phone := none, email := none }

/-- Concrete A-Leads family response carrying 100 family members. -/
def relNet100 : Except PyExc RelResponse :=
  .ok { status := 200,
        json := .ok (some [{ family := some relPerson100, associates := some [] }]) }

/-- Twenty blank employment rows. -/
def empRow20 : List EmpRow :=
  List.replicate 20
    { job_title := none, employer_name := none, start_date := none,
      end_date := none, industry := none }

/-- An A-Leads family result with empty family and associates arrays. -/
def r0Empty : RelResult0 := ⟨some [], some []⟩

/-- One SEC filing. -/
def secF0 : SecFiling := ⟨"4", "Acme Corp", "2024-01-15", "1", "2", "/cgi-bin/x"⟩

/-- Environment for a successful A-Leads call whose response contains
zero results: no stored row, quota available, key configured, POST
returns 200 with a well-formed empty result list. -/
def contactEnvZeroResults : ContactEnv :=
  { dbCount := .ok 0, quotaDb := .ok 0, keyConfigured := true,
    net := .ok { status := 200, json := .ok (some []) }, dbWrite := .ok () }

/-! ## Helper definitions and lemmas for the theorems -/

/-- Whether a settled task outcome is a success (not an exception
object) — the test the merge step would apply to the gathered list. -/
def exceptIsOk {α : Type} : Except PyExc α → Bool
  | .ok _ => true
  | .error _ => false

lemma gather_return_exceptions_eq {α : Type} (tasks : List (Except PyExc α)) :
    gather_return_exceptions tasks = tasks := by
  induction tasks with
  | nil => rfl
  | cons t ts ih => simpa [gather_return_exceptions] using ih

@[simp] lemma exceptIsOk_ok {α : Type} (a : α) :
    exceptIsOk (Except.ok a) = true := rfl

@[simp] lemma exceptIsOk_error {α : Type} (e : PyExc) :
    exceptIsOk (Except.error e : Except PyExc α) = false := rfl

lemma length_filter_exceptIsOk_add {α : Type} (tasks : List (Except PyExc α)) :
    (tasks.filter exceptIsOk).length
      + (tasks.filter (fun t => !(exceptIsOk t))).length = tasks.length := by
  induction tasks with
  | nil => rfl
  | cons t ts ih =>
    cases t <;> simp [List.filter_cons] <;> omega

/-! ## Claim theorems -/

/-- C1: for every entity type and every behaviour of the event-loop
setup and of the dispatched enrichment coroutines — including any of
them raising — `trigger_enrichments_async` returns normally (the
`except Exception` boundary converts every failure), and
`gather(*tasks, return_exceptions=True)` settles every dispatched task
independently, so out of `N` dispatched tasks of which `M` fail the
gathered outcome holds successful results for exactly `N − M` tasks. -/
theorem trigger_never_raises_and_settles_all :
    (∀ (entity_type : String) (env : TriggerEnv),
        trigger_enrichments_async entity_type env = .ok ()) ∧
    (∀ (tasks : List (Except PyExc Unit)),
        (gather_return_exceptions tasks).length = tasks.length ∧
        ((gather_return_exceptions tasks).filter exceptIsOk).length
          = tasks.length - ((gather_return_exceptions tasks).filter
              (fun t => !(exceptIsOk t))).length) := by
  constructor
  · intro entity_type env
    unfold trigger_enrichments_async
    cases h : env.loopSetup <;>
      simp [h, trigger_tasks] <;> split <;> rfl
  · intro tasks
    rw [gather_return_exceptions_eq]
    refine ⟨rfl, ?_⟩
    have := length_filter_exceptIsOk_add tasks
    omega

/-- C3: quota checking fails closed: when the usage lookup raises, the
caught-exception sentinel `999999` is at least every configured monthly
limit (6000 for `data_axle`, 60000 for `a_leads`, 0 for unknown
sources), so `can_enrich` returns `false` for every source name. -/
theorem can_enrich_fails_closed :
    (∀ (source : String) (e : PyExc), can_enrich source (.error e) = false) ∧
    FREE_LIMITS_get "data_axle" = 6000 ∧ FREE_LIMITS_get "a_leads" = 60000 ∧
    (∀ source : String, FREE_LIMITS_get source ≤ 999999) := by
  refine ⟨?_, rfl, rfl, ?_⟩
  · intro source e
    by_cases h1 : source = "data_axle" <;> by_cases h2 : source = "a_leads" <;>
      simp [can_enrich, get_monthly_usage, FREE_LIMITS_get, h1, h2]
  · intro source
    by_cases h1 : source = "data_axle" <;> by_cases h2 : source = "a_leads" <;>
      simp [FREE_LIMITS_get, h1, h2]

/-- C4 (code bug): for a `"person"` entity the event trace of
`trigger_enrichments_async` settles both dispatched enrichment tasks
before control returns — `loop.run_until_complete` blocks the caller
until the whole batch finishes, so the return event is last, not first,
contradicting the "Non-blocking enrichment trigger" docstring and the
spec's return-immediately contract. -/
theorem trigger_person_trace_blocks :
    trigger_trace "person" =
      [TriggerEvent.taskSettled 0, TriggerEvent.taskSettled 1,
       TriggerEvent.returnToCaller] ∧
    (trigger_trace "person").getLast? = some TriggerEvent.returnToCaller := by
  constructor <;> rfl

/-- C10: when Redis is not configured (`r is None`), a
`cache_ttl`-wrapped function is extensionally the undecorated function:
it returns exactly `func(*args, **kw)` (value or exception), calls the
underlying function exactly once, and performs no cache reads, writes,
or stores. -/
theorem cache_ttl_unconfigured_extensional :
    ∀ (V : Type) (decode : String → V) (encode : V → String)
      (func : Except PyExc V),
      cache_ttl none decode encode func =
        { result := func, funcCalls := 1, cacheGets := 0, cacheSets := 0,
          stored := none } := by
  intro V decode encode func
  rfl

/-- C6: orchestration is idempotent with respect to external calls:
whenever the initial `COUNT(*)` existence check of
`enrich_person_contact`, `enrich_bankruptcy`, or
`enrich_business_firmographics` finds a stored row, the function
returns before any network request, so a second orchestration pass
performs zero external HTTP calls for that field. -/
theorem stored_row_short_circuits_before_network :
    ∀ (cEnv : ContactEnv) (bEnv : BkEnv) (fEnv : FirmoEnv) (n : Nat),
      (cEnv.dbCount = .ok n → 0 < n →
        (enrich_person_contact cEnv).httpCalls = 0) ∧
      (bEnv.dbCount = .ok n → 0 < n →
        (enrich_bankruptcy bEnv).httpCalls = 0) ∧
      (fEnv.dbCount = .ok n → 0 < n →
        (enrich_business_firmographics fEnv).httpCalls = 0) := by
  intro cEnv bEnv fEnv n
  refine ⟨?_, ?_, ?_⟩ <;> intro h hn <;>
    simp [enrich_person_contact, enrich_bankruptcy,
          enrich_business_firmographics, h, hn]

/-- Witness for C6: concrete environments with one stored row and a
network that would fail if it were ever contacted. -/
theorem stored_row_short_circuits_witness :
    (enrich_person_contact
        ⟨.ok 1, .ok 0, true, .error .timeoutError, .ok ()⟩).httpCalls = 0 ∧
    (enrich_bankruptcy
        ⟨.ok 1, .error .timeoutError, fun _ => .ok ()⟩).httpCalls = 0 ∧
    (enrich_business_firmographics
        ⟨.ok 1, .ok 0, true, .error .timeoutError, .ok ()⟩).httpCalls = 0 := by
  have h := stored_row_short_circuits_before_network
      ⟨.ok 1, .ok 0, true, .error .timeoutError, .ok ()⟩
      ⟨.ok 1, .error .timeoutError, fun _ => .ok ()⟩
      ⟨.ok 1, .ok 0, true, .error .timeoutError, .ok ()⟩ 1
  exact ⟨h.1 rfl (by decide), h.2.1 rfl (by decide), h.2.2 rfl (by decide)⟩

/-- C9: a person name whose `", "`-split has three or more parts (the
separator occurs at least twice) makes the tuple unpacking raise
`ValueError` in all four adapters that share the split idiom, before
any external call is attempted (the call counter stays 0); with exactly
two parts the first is the last name and the second the first name;
with one part (no separator) the whole string is the last name and the
first name is empty. -/
theorem double_comma_raises_before_any_call :
    ∀ (pn : String),
      ((pySplit ", " pn).length ≥ 3 →
        parseName pn = .error .valueError ∧
        (∀ net, enrich_evictions pn net = (0, .error .valueError)) ∧
        (∀ net, enrich_employment_deep pn net = (0, .error .valueError)) ∧
        (∀ bulk, enrich_education pn bulk = (0, .error .valueError)) ∧
        (∀ bulk, enrich_professional_licenses pn bulk
          = (0, .error .valueError))) ∧
      (∀ l f, pySplit ", " pn = [l, f] → parseName pn = .ok (l, f)) ∧
      ((pySplit ", " pn).length = 1 → parseName pn = .ok (pn, "")) := by
  intro pn
  refine ⟨?_, ?_, ?_⟩
  · intro h3
    have hins : pyInStr ", " pn = true := by
      unfold pyInStr
      simp only [Bool.or_eq_true, bne_iff_ne, ne_eq]
      right
      omega
    have hpe : parseName pn = .error .valueError := by
      unfold parseName
      rcases hl : pySplit ", " pn with _ | ⟨a, _ | ⟨b, _ | ⟨c, rest⟩⟩⟩ <;>
        rw [hl] at h3 <;> simp at h3 <;> simp [hins, hl]
    refine ⟨hpe, ?_, ?_, ?_, ?_⟩ <;> intro x <;>
      simp [enrich_evictions, enrich_employment_deep, enrich_education,
            enrich_professional_licenses, hpe]
  · intro l f hsp
    have hins : pyInStr ", " pn = true := by
      unfold pyInStr
      rw [hsp]
      simp
    unfold parseName
    simp [hins, hsp]
  · intro h1
    have hins : pyInStr ", " pn = false := by
      unfold pyInStr
      rw [h1]
      decide
    unfold parseName
    simp [hins]

/-- Witness for C9: `"Smith, John, Jr."` raises `ValueError` in
`enrich_evictions` with no call attempted; `"Smith, John"` parses as
last name `"Smith"`, first name `"John"`; `"Cher"` parses as last name
`"Cher"` with empty first name. -/
theorem double_comma_witness :
    enrich_evictions "Smith, John, Jr." (.error .timeoutError)
      = (0, .error .valueError) ∧
    parseName "Smith, John" = .ok ("Smith", "John") ∧
    parseName "Cher" = .ok ("Cher", "") := by
  refine ⟨((double_comma_raises_before_any_call "Smith, John, Jr.").1
        (by decide)).2.1 _, ?_, ?_⟩
  · exact (double_comma_raises_before_any_call "Smith, John").2.1
      "Smith" "John" (by decide)
  · exact (double_comma_raises_before_any_call "Cher").2.2 (by decide)

/-- C2 counterexample: a network timeout during `enrich_evictions`
propagates to the caller (the adapter has no try/except), instead of
the claimed "no data" sentinel. -/
theorem evictions_timeout_raises :
    enrich_evictions "Smith, John" (.error .timeoutError)
      = (1, .error .timeoutError) := by
  rfl

/-- C2 amended: for every well-formed name, a non-2xx response is
handled by returning `None` and the try/except-wrapped
`enrich_relatives_deep` returns the `None` sentinel on any network
failure; but `enrich_evictions`, `enrich_federal_cases`,
`enrich_education`, and `enrich_professional_licenses` propagate
exceptions: a raised network/download error propagates unchanged, and a
malformed payload row raises `KeyError` out of `enrich_evictions` and
out of `enrich_federal_cases` (a docket without the mandatory
`docket_number` key). -/
theorem adapter_failure_behaviour_amended :
    ∀ (pn : String) (lf : String × String), parseName pn = .ok lf →
      (∀ (e : PyExc), (enrich_evictions pn (.error e)).2 = .error e) ∧
      (∀ resp : EvResponse, resp.status ≠ 200 →
          enrich_evictions pn (.ok resp) = (1, .ok none)) ∧
      ((enrich_evictions pn (.ok ⟨200, .ok [⟨none⟩]⟩)).2 = .error .keyError) ∧
      (∀ (e : PyExc), (enrich_federal_cases pn (.error e)).2 = .error e) ∧
      (∀ resp : FedResponse, resp.status ≠ 200 →
          enrich_federal_cases pn (.ok resp) = (1, .ok none)) ∧
      ((enrich_federal_cases pn
          (.ok ⟨200, .ok (some [⟨none, none, none, none, none, none⟩])⟩)).2
        = .error .keyError) ∧
      (∀ (e : PyExc), (enrich_education pn (.error e)).2 = .error e) ∧
      (∀ (e : PyExc) (bulk : String → Except PyExc (List LicCsvRow)),
          bulk "medical" = .error e →
          (enrich_professional_licenses pn bulk).2 = .error e) ∧
      (∀ (kc qa : Bool) (e : PyExc),
          enrich_relatives_deep pn kc qa (.error e) = (0, none)) := by
  intro pn lf hp
  refine ⟨?_, ?_, ?_, ?_, ?_, ?_, ?_, ?_, ?_⟩
  · intro e
    simp [enrich_evictions, hp]
  · intro resp hs
    simp [enrich_evictions, hp, hs]
  · simp only [enrich_evictions, hp]
    rfl
  · intro e
    simp [enrich_federal_cases, hp]
  · intro resp hs
    simp [enrich_federal_cases, hp, hs]
  · simp only [enrich_federal_cases, hp]
    rfl
  · intro e
    simp [enrich_education, hp, download_bulk_csv_once]
  · intro e bulk hb
    simp [enrich_professional_licenses, hp, licLoop, BULK_SOURCES_keys,
          download_bulk_csv_once, hb]
  · intro kc qa e
    cases kc <;> cases qa <;>
      simp [enrich_relatives_deep] <;>
      cases hr : relParseName pn <;> simp [hr]

/-- Witness for C2 amended, at the name `"Smith, John"` with concrete
failing collaborators. -/
theorem adapter_failure_behaviour_witness :
    (enrich_evictions "Smith, John" (.error .connectionError)).2
        = .error .connectionError ∧
    enrich_evictions "Smith, John" (.ok ⟨404, .ok []⟩) = (1, .ok none) ∧
    (enrich_evictions "Smith, John" (.ok ⟨200, .ok [⟨none⟩]⟩)).2
        = .error .keyError ∧
    (enrich_federal_cases "Smith, John" (.error .timeoutError)).2
        = .error .timeoutError ∧
    (enrich_federal_cases "Smith, John"
        (.ok ⟨200, .ok (some [⟨none, none, none, none, none, none⟩])⟩)).2
        = .error .keyError ∧
    (enrich_education "Smith, John" (.error .connectionError)).2
        = .error .connectionError ∧
    (enrich_professional_licenses "Smith, John"
        (fun _ => .error .connectionError)).2 = .error .connectionError ∧
    enrich_relatives_deep "Smith, John" true true (.error .timeoutError)
        = (0, none) := by
  have h := adapter_failure_behaviour_amended "Smith, John" ("Smith", "John")
      (by decide)
  exact ⟨h.1 .connectionError, h.2.1 ⟨404, .ok []⟩ (by decide), h.2.2.1,
         h.2.2.2.1 .timeoutError, h.2.2.2.2.2.1,
         h.2.2.2.2.2.2.1 .connectionError,
         h.2.2.2.2.2.2.2.1 .connectionError
           (fun _ => .error .connectionError) rfl,
         h.2.2.2.2.2.2.2.2 true true .timeoutError⟩

/-- C7 counterexample: with a configured Redis client whose `get`
raises, a `cache_ttl`-wrapped function propagates the exception and
never performs the underlying work — it does not behave as a cache
miss. -/
theorem cache_ttl_configured_failure_raises :
    (cache_ttl (some ⟨.error .connectionError, .ok ()⟩)
        (fun _ => (0 : Nat)) (fun _ => "") (.ok 42)).result
        = .error .connectionError ∧
    (cache_ttl (some ⟨.error .connectionError, .ok ()⟩)
        (fun _ => (0 : Nat)) (fun _ => "") (.ok 42)).funcCalls = 0 := by
  exact ⟨rfl, rfl⟩

/-- C7 amended: when the Redis client is unconfigured (`r is None`), a
`cache_ttl`-wrapped function performs the underlying work directly and
returns its value with no cache operation, and the async adapters'
`_get_redis_client` converts a failing backend into `None` (treated by
its callers as an unconditional miss); but when a configured client's
`get` raises, the `cache_ttl` wrapper propagates the exception to its
caller without performing the underlying work, and when the configured
client's `setex` raises on a cache miss, the wrapper propagates the
exception after the underlying function has already run once, its
value discarded. -/
theorem cache_unavailability_amended :
    (∀ (e : PyExc), get_redis_client (Except.error e : Except PyExc RedisOps)
        = none) ∧
    (∀ (V : Type) (decode : String → V) (encode : V → String)
        (func : Except PyExc V),
        (cache_ttl none decode encode func).result = func ∧
        (cache_ttl none decode encode func).cacheGets = 0 ∧
        (cache_ttl none decode encode func).cacheSets = 0) ∧
    (∀ (cl : RedisOps) (V : Type) (decode : String → V) (encode : V → String)
        (v : V) (e : PyExc), cl.get = .error e →
        (cache_ttl (some cl) decode encode (.ok v)).result = .error e ∧
        (cache_ttl (some cl) decode encode (.ok v)).funcCalls = 0) ∧
    (∀ (cl : RedisOps) (V : Type) (decode : String → V) (encode : V → String)
        (v : V) (e : PyExc), cl.get = .ok none → cl.setex = .error e →
        (cache_ttl (some cl) decode encode (.ok v)).result = .error e ∧
        (cache_ttl (some cl) decode encode (.ok v)).funcCalls = 1) := by
  refine ⟨fun e => rfl, fun V d en f => ⟨rfl, rfl, rfl⟩, ?_, ?_⟩
  · intro cl V d en v e hget
    constructor <;> simp [cache_ttl, hget]
  · intro cl V d en v e hget hset
    constructor <;> simp [cache_ttl, hget, hset]

/-- Witness for C7 amended at concrete failing clients: a raising `get`
propagates with zero underlying calls; a raising `setex` propagates
with exactly one underlying call. -/
theorem cache_unavailability_amended_witness :
    (cache_ttl (some ⟨.error .timeoutError, .ok ()⟩)
        (fun _ => (0 : Nat)) (fun _ => "") (.ok 7)).result
        = .error .timeoutError ∧
    (cache_ttl (some ⟨.ok none, .error .timeoutError⟩)
        (fun _ => (0 : Nat)) (fun _ => "") (.ok 7)).result
        = .error .timeoutError ∧
    (cache_ttl (some ⟨.ok none, .error .timeoutError⟩)
        (fun _ => (0 : Nat)) (fun _ => "") (.ok 7)).funcCalls = 1 := by
  have h1 := cache_unavailability_amended.2.2.1 ⟨.error .timeoutError, .ok ()⟩
      Nat (fun _ => 0) (fun _ => "") 7 .timeoutError rfl
  have h2 := cache_unavailability_amended.2.2.2 ⟨.ok none, .error .timeoutError⟩
      Nat (fun _ => 0) (fun _ => "") 7 .timeoutError rfl rfl
  exact ⟨h1.1, h2.1, h2.2⟩

lemma fedCleanAll_ok_length :
    ∀ (cs : List FedCase) (rs : List FedOut),
      fedCleanAll cs = .ok rs → rs.length = cs.length := by
  intro cs
  induction cs with
  | nil =>
    intro rs h
    simp [fedCleanAll] at h
    simp [← h]
  | cons c cs ih =>
    intro rs h
    unfold fedCleanAll at h
    cases hc : fedClean c with
    | error e => rw [hc] at h; simp at h
    | ok r =>
      rw [hc] at h
      cases hr : fedCleanAll cs with
      | error e => rw [hr] at h; simp at h
      | ok rs2 =>
        rw [hr] at h
        simp only [Except.ok.injEq] at h
        subst h
        simp [ih rs2 hr]

/-- C5 counterexample: `enrich_relatives_deep` applies no truncation —
a provider response with 100 family members yields a normalized list of
length 100, longer than every cap in the repository (the largest cap is
50). -/
theorem relatives_exceed_any_cap :
    ((enrich_relatives_deep "Smith, John" true true relNet100).2).map
        List.length = some 100 ∧ 50 < 100 := by
  exact ⟨by decide, by decide⟩

/-- C5 amended: the adapters with a cap line do bound their output —
`enrich_professional_licenses` to 50, `enrich_education` and
`enrich_employment_deep` to 20 (exactly 20 when the provider returns at
least 20 rows), `enrich_sec_filings` to 20 on the fetch path, and
`enrich_domain` to 10 — but `enrich_relatives_deep` and
`enrich_federal_cases` return the full normalized provider list with no
truncation, so their output length equals the raw result length and is
unbounded. -/
theorem list_caps_amended :
    (∀ (pn : String) (bulk : String → Except PyExc (List LicCsvRow))
        (lst : List LicOut),
        (enrich_professional_licenses pn bulk).2 = .ok lst →
        lst.length ≤ 50) ∧
    (∀ (pn : String) (bulk : Except PyExc (List EduCsvRow))
        (lst : List EduOut),
        (enrich_education pn bulk).2 = .ok lst → lst.length ≤ 20) ∧
    (∀ (pn : String) (net : Except PyExc EmpResponse) (lst : List EmpOut),
        (enrich_employment_deep pn net).2 = .ok (some lst) →
        lst.length ≤ 20) ∧
    (∀ (pn : String) (lf : String × String) (rows : List EmpRow),
        parseName pn = .ok lf → 20 ≤ rows.length →
        ∃ lst : List EmpOut,
          (enrich_employment_deep pn (.ok ⟨200, .ok (some rows)⟩)).2
            = .ok (some lst) ∧ lst.length = 20) ∧
    (∀ (nm xml : Option String) (parse : String → List SecFiling)
        (lst : List SecFiling),
        enrich_sec_filings nm none xml parse = some lst →
        lst.length ≤ 20) ∧
    (∀ (em : String) (net : Except PyExc DomResponse)
        (rd : String → String) (lst : List String),
        (enrich_domain em net rd).2 = .ok (some lst) → lst.length ≤ 10) ∧
    (∀ (pn : String) (lf : String × String) (r0 : RelResult0),
        relParseName pn = .ok lf →
        (enrich_relatives_deep pn true true
            (.ok ⟨200, .ok (some [r0])⟩)).2
          = some ((r0.family.getD []).map relCleanFamily
              ++ (r0.associates.getD []).map relCleanAssoc)) ∧
    (∀ (pn : String) (lf : String × String) (cs : List FedCase)
        (rs : List FedOut),
        parseName pn = .ok lf → fedCleanAll cs = .ok rs →
        (enrich_federal_cases pn (.ok ⟨200, .ok (some cs)⟩)).2
          = .ok (some rs) ∧ rs.length = cs.length) := by
  refine ⟨?_, ?_, ?_, ?_, ?_, ?_, ?_, ?_⟩
  · intro pn bulk lst h
    rcases hp : parseName pn with e | ⟨last, first⟩
    · simp [enrich_professional_licenses, hp] at h
    · simp only [enrich_professional_licenses, hp] at h
      rcases hll : licLoop last bulk BULK_SOURCES_keys with ⟨n, e | all⟩ <;>
        rw [hll] at h
      · simp at h
      · simp only [Except.ok.injEq] at h
        subst h
        simp [List.length_take]
  · intro pn bulk lst h
    rcases hp : parseName pn with e | ⟨last, first⟩
    · simp [enrich_education, hp] at h
    · rcases bulk with e | rows
      · simp [enrich_education, hp, download_bulk_csv_once] at h
      · simp only [enrich_education, hp, download_bulk_csv_once,
          Except.ok.injEq] at h
        subst h
        simp [List.length_take]
  · intro pn net lst h
    rcases hp : parseName pn with e | lf
    · simp [enrich_employment_deep, hp] at h
    · rcases net with e | ⟨st, js⟩
      · simp [enrich_employment_deep, hp] at h
      · by_cases hs : st = 200
        · subst hs
          rcases js with e | rowsOpt
          · simp [enrich_employment_deep, hp] at h
          · simp only [enrich_employment_deep, hp] at h
            simp at h
            rw [← h]
            simp [List.length_take]
        · simp [enrich_employment_deep, hp, hs] at h
  · intro pn lf rows hp h20
    refine ⟨(rows.map (fun j =>
        { job_title := j.job_title, employer := j.employer_name,
          start_date := j.start_date, end_date := j.end_date,
          industry := j.industry,
          source := "data_axle_employment" : EmpOut })).take 20, ?_, ?_⟩
    · simp [enrich_employment_deep, hp]
    · simp [List.length_take, List.length_map]
      omega
  · intro nm xml parse lst h
    rcases nm with _ | nm'
    · simp [enrich_sec_filings] at h
    · by_cases hn : nm' = ""
      · simp [enrich_sec_filings, hn] at h
      · rcases xml with _ | x
        · simp [enrich_sec_filings, hn] at h
        · by_cases hf : (parse x).take FILING_LIMIT = []
          · simp [enrich_sec_filings, hn, hf] at h
          · simp only [enrich_sec_filings, hn, hf, if_false, if_neg,
              Option.some.injEq] at h
            rw [← h]
            simp [FILING_LIMIT, List.length_take]
  · intro em net rd lst h
    by_cases hem : em = ""
    · simp [enrich_domain, hem] at h
    · cases hin : pyInStr "@" em with
      | false => simp [enrich_domain, hem, hin] at h
      | true =>
        rcases net with e | ⟨st, js⟩
        · simp [enrich_domain, hem, hin] at h
        · by_cases hs : st = 200
          · subst hs
            rcases js with e | rawOpt
            · simp [enrich_domain, hem, hin] at h
            · simp only [enrich_domain, hem, hin] at h
              simp at h
              rw [← h]
              simp [List.length_take]
          · simp [enrich_domain, hem, hin, hs] at h
  · intro pn lf r0 hr
    simp [enrich_relatives_deep, hr]
  · intro pn lf cs rs hp hfc
    constructor
    · simp [enrich_federal_cases, hp, hfc]
    · exact fedCleanAll_ok_length cs rs hfc

/-- Witness for C5 amended at concrete inputs: twenty employment rows
are capped at exactly 20; an empty family graph and an empty federal
docket list pass through untruncated; the license, education, SEC and
domain adapters stay within their caps on concrete runs. -/
theorem list_caps_amended_witness :
    (∃ lst : List EmpOut,
        (enrich_employment_deep "Smith, John"
            (.ok ⟨200, .ok (some empRow20)⟩)).2 = .ok (some lst) ∧
        lst.length = 20) ∧
    (enrich_relatives_deep "Smith, John" true true
        (.ok ⟨200, .ok (some [r0Empty])⟩)).2
      = some ((r0Empty.family.getD []).map relCleanFamily
          ++ (r0Empty.associates.getD []).map relCleanAssoc) ∧
    (enrich_federal_cases "Smith, John" (.ok ⟨200, .ok (some [])⟩)).2
      = .ok (some []) ∧
    ([] : List LicOut).length ≤ 50 ∧
    ([] : List EduOut).length ≤ 20 ∧
    [secF0].length ≤ 20 ∧
    ([] : List String).length ≤ 10 := by
  have h := list_caps_amended
  refine ⟨h.2.2.2.1 "Smith, John" ("Smith", "John") empRow20 (by decide)
        (by decide),
      h.2.2.2.2.2.2.1 "Smith, John" ("Smith", "John") r0Empty (by decide),
      (h.2.2.2.2.2.2.2 "Smith, John" ("Smith", "John") [] [] (by decide)
        rfl).1,
      h.1 "Smith, John" (fun _ => .ok []) [] rfl,
      h.2.1 "Smith, John" (.ok []) [] rfl,
      h.2.2.2.2.1 (some "Jane Doe") (some "x") (fun _ => [secF0]) [secF0]
        rfl,
      h.2.2.2.2.2.1 "a@b.com" (.ok ⟨200, .ok (some "")⟩) (fun s => s) []
        rfl⟩

/-- C8 counterexample: a confirmed successful external call whose
response contains zero results increments the usage counter zero times
— `enrich_person_contact` returns on empty `results` before reaching
the `api_cost_log` insert, so the HTTP call happened but no usage row
was recorded. -/
theorem successful_zero_result_call_not_counted :
    enrich_person_contact contactEnvZeroResults
      = { httpCalls := 1, contactInserts := 0, costLogInserts := 0,
          inserted := none } := by
  rfl

/-- C8 amended: the usage counter only ever moves up, by at most one
per call, and never on a failed or merely attempted call; but it is not
incremented on every successful call: `enrich_person_contact` and
`enrich_business_firmographics` record the `api_cost_log` row exactly
once per successful call whose response contains at least one result
(a zero-result success is not counted in either), while
`enrich_relatives_deep` increments once per parsed 200 response even
with zero results, and not on a 404 or any failure. -/
theorem usage_counter_amended :
    (∀ env : ContactEnv, (enrich_person_contact env).costLogInserts ≤ 1) ∧
    (∀ (dbc q : Except PyExc Nat) (kc : Bool) (dbw : Except PyExc Unit)
        (e : PyExc),
        (enrich_person_contact ⟨dbc, q, kc, .error e, dbw⟩).costLogInserts
          = 0) ∧
    (∀ (dbc q : Except PyExc Nat) (kc : Bool) (dbw : Except PyExc Unit)
        (st : Nat) (js : Except PyExc (Option (List ALeadsContact))),
        st < 200 ∨ 300 ≤ st →
        (enrich_person_contact ⟨dbc, q, kc, .ok ⟨st, js⟩, dbw⟩).costLogInserts
          = 0) ∧
    (∀ (q : Except PyExc Nat) (c : ALeadsContact) (rest : List ALeadsContact)
        (st : Nat),
        can_enrich "a_leads" q = true → 200 ≤ st ∧ st < 300 →
        (enrich_person_contact
            ⟨.ok 0, q, true, .ok ⟨st, .ok (some (c :: rest))⟩,
             .ok ()⟩).costLogInserts = 1) ∧
    (∀ (pn : String) (lf : String × String), relParseName pn = .ok lf →
        enrich_relatives_deep pn true true (.ok ⟨200, .ok (some [])⟩)
          = (1, none)) ∧
    (∀ (pn : String) (kc qa : Bool) (resp : RelResponse),
        resp.status ≠ 200 →
        (enrich_relatives_deep pn kc qa (.ok resp)).1 = 0) ∧
    (∀ (pn : String) (kc qa : Bool) (e : PyExc),
        (enrich_relatives_deep pn kc qa (.error e)).1 = 0) ∧
    (∀ env : FirmoEnv,
        (enrich_business_firmographics env).costLogInserts ≤ 1) ∧
    (∀ (dbc q : Except PyExc Nat) (kc : Bool) (dbw : Except PyExc Unit)
        (e : PyExc),
        (enrich_business_firmographics
            ⟨dbc, q, kc, .error e, dbw⟩).costLogInserts = 0) ∧
    (∀ (dbc q : Except PyExc Nat) (kc : Bool) (dbw : Except PyExc Unit)
        (st : Nat) (js : Except PyExc (Option (List AxleBiz))),
        st < 200 ∨ 300 ≤ st →
        (enrich_business_firmographics
            ⟨dbc, q, kc, .ok ⟨st, js⟩, dbw⟩).costLogInserts = 0) ∧
    (∀ (q : Except PyExc Nat) (st : Nat), 200 ≤ st ∧ st < 300 →
        (enrich_business_firmographics
            ⟨.ok 0, q, true, .ok ⟨st, .ok (some [])⟩,
             .ok ()⟩).costLogInserts = 0) ∧
    (∀ (q : Except PyExc Nat) (biz : AxleBiz) (rest : List AxleBiz)
        (st : Nat),
        can_enrich "data_axle" q = true → 200 ≤ st ∧ st < 300 →
        (enrich_business_firmographics
            ⟨.ok 0, q, true, .ok ⟨st, .ok (some (biz :: rest))⟩,
             .ok ()⟩).costLogInserts = 1) := by
  refine ⟨?_, ?_, ?_, ?_, ?_, ?_, ?_, ?_, ?_, ?_, ?_, ?_⟩
  · intro env
    obtain ⟨dbc, q, kc, net, dbw⟩ := env
    rcases dbc with e | n
    · simp [enrich_person_contact]
    · by_cases hn : n > 0
      · simp [enrich_person_contact, hn]
      · cases hq : can_enrich "a_leads" q
        · simp [enrich_person_contact, hn, hq]
        · cases kc
          · simp [enrich_person_contact, hn, hq]
          · rcases net with e | ⟨st, js⟩
            · simp [enrich_person_contact, hn, hq]
            · by_cases hs : st < 200 ∨ 300 ≤ st
              · simp [enrich_person_contact, hn, hq, hs]
              · rcases js with e | ro
                · simp [enrich_person_contact, hn, hq, hs]
                · rcases ro with _ | ⟨_ | ⟨c, rest⟩⟩ <;>
                    rcases dbw with e | _ <;>
                    simp [enrich_person_contact, hn, hq, hs]
  · intro dbc q kc dbw e
    rcases dbc with e' | n
    · simp [enrich_person_contact]
    · by_cases hn : n > 0 <;>
        cases hq : can_enrich "a_leads" q <;>
        cases kc <;>
        simp [enrich_person_contact, hn, hq]
  · intro dbc q kc dbw st js hs
    rcases dbc with e' | n
    · simp [enrich_person_contact]
    · by_cases hn : n > 0 <;>
        cases hq : can_enrich "a_leads" q <;>
        cases kc <;>
        simp [enrich_person_contact, hn, hq, hs]
  · intro q c rest st hq hst
    simp [enrich_person_contact, hq, Nat.not_lt.mpr hst.1,
          Nat.not_le.mpr hst.2]
  · intro pn lf hr
    simp [enrich_relatives_deep, hr]
  · intro pn kc qa resp hs
    cases kc <;> cases qa <;> simp [enrich_relatives_deep, hs] <;>
      cases hr : relParseName pn <;> simp [hr, hs] <;> split <;> rfl
  · intro pn kc qa e
    cases kc <;> cases qa <;> simp [enrich_relatives_deep] <;>
      cases hr : relParseName pn <;> simp [hr]
  · intro env
    obtain ⟨dbc, q, kc, net, dbw⟩ := env
    rcases dbc with e | n
    · simp [enrich_business_firmographics]
    · by_cases hn : n > 0
      · simp [enrich_business_firmographics, hn]
      · cases hq : can_enrich "data_axle" q
        · simp [enrich_business_firmographics, hn, hq]
        · cases kc
          · simp [enrich_business_firmographics, hn, hq]
          · rcases net with e | ⟨st, js⟩
            · simp [enrich_business_firmographics, hn, hq]
            · by_cases hs : st < 200 ∨ 300 ≤ st
              · simp [enrich_business_firmographics, hn, hq, hs]
              · rcases js with e | ro
                · simp [enrich_business_firmographics, hn, hq, hs]
                · rcases ro with _ | ⟨_ | ⟨biz, rest⟩⟩ <;>
                    rcases dbw with e | _ <;>
                    simp [enrich_business_firmographics, hn, hq, hs]
  · intro dbc q kc dbw e
    rcases dbc with e' | n
    · simp [enrich_business_firmographics]
    · by_cases hn : n > 0 <;>
        cases hq : can_enrich "data_axle" q <;>
        cases kc <;>
        simp [enrich_business_firmographics, hn, hq]
  · intro dbc q kc dbw st js hs
    rcases dbc with e' | n
    · simp [enrich_business_firmographics]
    · by_cases hn : n > 0 <;>
        cases hq : can_enrich "data_axle" q <;>
        cases kc <;>
        simp [enrich_business_firmographics, hn, hq, hs]
  · intro q st hst
    cases hq : can_enrich "data_axle" q <;>
      simp [enrich_business_firmographics, hq, Nat.not_lt.mpr hst.1,
            Nat.not_le.mpr hst.2]
  · intro q biz rest st hq hst
    simp [enrich_business_firmographics, hq, Nat.not_lt.mpr hst.1,
          Nat.not_le.mpr hst.2]

/-- Witness for C8 amended at concrete inputs: a successful call with
one result is counted once; a 404 and a timeout are not counted; a
zero-result 200 response still counts for the relatives adapter but
not for the firmographics adapter. -/
theorem usage_counter_amended_witness :
    (enrich_person_contact
        ⟨.ok 0, .ok 0, true, .ok ⟨200, .ok (some [⟨none, none, none⟩])⟩,
         .ok ()⟩).costLogInserts = 1 ∧
    (enrich_person_contact
        ⟨.ok 0, .ok 0, true, .ok ⟨404, .ok (some [])⟩,
         .ok ()⟩).costLogInserts = 0 ∧
    enrich_relatives_deep "Smith, John" true true
        (.ok ⟨200, .ok (some [])⟩) = (1, none) ∧
    (enrich_relatives_deep "Smith, John" true true
        (.ok ⟨404, .ok none⟩)).1 = 0 ∧
    (enrich_business_firmographics
        ⟨.ok 0, .ok 0, true, .ok ⟨200, .ok (some [⟨none, none, none, none⟩])⟩,
         .ok ()⟩).costLogInserts = 1 ∧
    (enrich_business_firmographics
        ⟨.ok 0, .ok 0, true, .ok ⟨200, .ok (some [])⟩,
         .ok ()⟩).costLogInserts = 0 ∧
    (enrich_business_firmographics
        ⟨.ok 0, .ok 0, true, .error .timeoutError, .ok ()⟩).costLogInserts
      = 0 := by
  have h := usage_counter_amended
  refine ⟨h.2.2.2.1 (.ok 0) ⟨none, none, none⟩ [] 200 (by decide)
        (by omega),
      h.2.2.1 (.ok 0) (.ok 0) true (.ok ()) 404 (.ok (some []))
        (by omega),
      h.2.2.2.2.1 "Smith, John" ("Smith", "John") (by decide),
      h.2.2.2.2.2.1 "Smith, John" true true ⟨404, .ok none⟩ (by decide),
      h.2.2.2.2.2.2.2.2.2.2.2 (.ok 0) ⟨none, none, none, none⟩ [] 200
        (by decide) (by omega),
      h.2.2.2.2.2.2.2.2.2.2.1 (.ok 0) 200 (by omega),
      h.2.2.2.2.2.2.2.2.1 (.ok 0) (.ok 0) true (.ok ()) .timeoutError⟩
